import Mathlib

/-!
Shallow embedding of the queuectl job-queue core
(`queuectl/models.py`, `queuectl/database.py`, `queuectl/queue.py`,
`queuectl/worker.py`, `queuectl/cli.py`) together with proofs about its
claim, retry, dead-letter-queue and statistics logic.

Timestamps are abstracted as naturals, Python integers as `Int`, the SQLite
`jobs` table as a list of rows, and the nondeterministic outside world
(subprocess behaviour, store-write failures, scheduling of concurrent
claimants) as explicit parameters.
-/

namespace QueueCtl

/-- Job states (`models.py`, enum `JobState`). -/
inductive JobState where
  | pending
  | processing
  | completed
  | failed
  | dead
deriving DecidableEq

/-- The five members of the `JobState` enum, in declaration order
(used by the `for state in JobState` loop of `Database.get_stats`). -/
def jobStates : List JobState :=
  [JobState.pending, JobState.processing, JobState.completed,
   JobState.failed, JobState.dead]

/-- In-memory job object (`models.py`, class `Job`): the Python object
carries no lock fields, those exist only on the database row. -/
structure Job where
  id : String
  command : String
  state : JobState
  attempts : Int
  max_retries : Int
  created_at : Nat
  updated_at : Nat
deriving DecidableEq

/-- One row of the SQLite `jobs` table (`database.py`, `_init_db`): the
seven job columns plus the nullable `locked_at` / `locked_by` columns. -/
structure JobRow where
  id : String
  command : String
  state : JobState
  attempts : Int
  max_retries : Int
  created_at : Nat
  updated_at : Nat
  locked_at : Option Nat
  locked_by : Option String
deriving DecidableEq

namespace Database

/-- `database.py`, `_row_to_job`: converts a row to a `Job`, dropping the
two lock columns (they are not read back into the object). -/
def _row_to_job (r : JobRow) : Job :=
  ⟨r.id, r.command, r.state, r.attempts, r.max_retries,
   r.created_at, r.updated_at⟩

/-- `database.py`, `add_job`: INSERT of the seven job columns; the lock
columns take their NULL defaults. (The PRIMARY KEY failure on a duplicate
id is not exercised by any claim and is not modelled.) -/
def add_job (db : List JobRow) (job : Job) : List JobRow :=
  db ++ [⟨job.id, job.command, job.state, job.attempts, job.max_retries,
          job.created_at, job.updated_at, none, none⟩]

/-- `database.py`, `update_job`: UPDATE of the mutable columns of every row
whose id matches; it always nulls the two lock columns and never writes
`created_at`. -/
def update_job (db : List JobRow) (job : Job) : List JobRow :=
  db.map fun r =>
    if r.id = job.id then
      { r with command := job.command, state := job.state,
               attempts := job.attempts, max_retries := job.max_retries,
               updated_at := job.updated_at,
               locked_at := none, locked_by := none }
    else r

/-- `database.py`, `get_job`: SELECT * WHERE id, first row or nothing. -/
def get_job (db : List JobRow) (job_id : String) : Option Job :=
  (db.find? fun r => r.id == job_id).map _row_to_job

/-- Insertion step of a sort by `created_at` ascending, modelling the
ORDER BY of the listing queries. -/
def insertByCreated (r : JobRow) : List JobRow → List JobRow
  | [] => [r]
  | x :: xs =>
      if r.created_at ≤ x.created_at then r :: x :: xs
      else x :: insertByCreated r xs

/-- Sort by `created_at` ascending (ORDER BY created_at ASC). -/
def sortByCreated (l : List JobRow) : List JobRow :=
  l.foldr insertByCreated []

/-- `database.py`, `get_pending_jobs`: rows with `state = pending` and
`locked_at IS NULL`, ordered by `created_at` ascending, read back as
`Job` objects. -/
def get_pending_jobs (db : List JobRow) : List Job :=
  (sortByCreated (db.filter fun r =>
      r.state == JobState.pending && r.locked_at.isNone)).map _row_to_job

/-- First statement of `database.py`, `lock_job`: the SELECT that checks
whether a row with this id is currently locked
(`WHERE id = ? AND locked_at IS NOT NULL`, then a truthiness test on
`fetchone()`). -/
def lock_job_check (db : List JobRow) (job_id : String) : Bool :=
  db.any fun r => r.id == job_id && r.locked_at.isSome

/-- Second statement of `database.py`, `lock_job`: the UPDATE that sets
`state = processing` and the lock columns on every row whose id matches
(the WHERE clause has no lock condition), paired with its
`rowcount > 0` test. -/
def lock_job_update (db : List JobRow) (job_id worker_id : String)
    (now : Nat) : List JobRow × Bool :=
  (db.map fun r =>
     if r.id = job_id then
       { r with state := JobState.processing, locked_at := some now,
                locked_by := some worker_id, updated_at := now }
     else r,
   db.any fun r => r.id == job_id)

/-- `database.py`, `lock_job`, as executed by one caller with no concurrent
interleaving: the check, then (only if no lock was seen) the update.
Returns the new table and the boolean result. -/
def lock_job (db : List JobRow) (job_id worker_id : String) (now : Nat) :
    List JobRow × Bool :=
  if lock_job_check db job_id then (db, false)
  else lock_job_update db job_id worker_id now

/-- `database.py`, `unlock_job`: nulls the lock columns and touches
`updated_at` on every row whose id matches. -/
def unlock_job (db : List JobRow) (job_id : String) (now : Nat) :
    List JobRow :=
  db.map fun r =>
    if r.id = job_id then
      { r with locked_at := none, locked_by := none, updated_at := now }
    else r

/-- Number of rows in a given state: the COUNT(*) of one GROUP BY bucket of
`database.py`, `get_stats`. -/
def countState (db : List JobRow) (s : JobState) : Nat :=
  (db.filter fun r => r.state == s).length

/-- `database.py`, `get_stats`, first phase: the GROUP BY result as an
association list with one entry per state value actually present in the
table. -/
def group_stats (db : List JobRow) : List (JobState × Nat) :=
  ((db.map fun r => r.state).dedup).map fun s => (s, countState db s)

/-- `dict.setdefault`: insert the pair only when the key is absent. -/
def setdefault (m : List (JobState × Nat)) (s : JobState) (v : Nat) :
    List (JobState × Nat) :=
  if m.any fun p => p.1 == s then m else m ++ [(s, v)]

/-- `database.py`, `get_stats`: the GROUP BY counts followed by
`stats.setdefault(state.value, 0)` for every member of `JobState`. -/
def get_stats (db : List JobRow) : List (JobState × Nat) :=
  jobStates.foldl (fun m s => setdefault m s 0) (group_stats db)

end Database

namespace QueueManager

/-- `config.py`, `Config.DEFAULTS` value for the `max_retries` key, which is
also the literal fallback in `self.config.get("max_retries", 3)`. -/
def defaultMaxRetries : Int := 3

/-- `queue.py`, `enqueue`. `job_id or str(uuid.uuid4())[:12]` coalesces a
missing or empty (falsy) id to the generated token `gen_id`;
`max_retries or self.config.get("max_retries", 3)` coalesces a missing or
zero (falsy) value to the configured default `cfg_max_retries`. The job is
created with `state = PENDING, attempts = 0` and inserted via `add_job`.
There is no validation of `command`. -/
def enqueue (db : List JobRow) (command : String) (job_id : Option String)
    (max_retries : Option Int) (gen_id : String) (cfg_max_retries : Int)
    (now : Nat) : List JobRow × Job :=
  let jid : String :=
    match job_id with
    | none => gen_id
    | some s => if s = "" then gen_id else s
  let mr : Int :=
    match max_retries with
    | none => cfg_max_retries
    | some m => if m = 0 then cfg_max_retries else m
  let job : Job := ⟨jid, command, JobState.pending, 0, mr, now, now⟩
  (Database.add_job db job, job)

/-- The two `ValueError` cases raised by `queue.py`, `retry_dlq_job`
(`"... not found"` and `"... is not in DLQ"`), playing the spec's
NotFound / StateConflict taxonomy. -/
inductive QueueError where
  | notFound (job_id : String)
  | stateConflict (job_id : String)
deriving DecidableEq

/-- `queue.py`, `retry_dlq_job`: raises NotFound when `get_job` finds
nothing and StateConflict when the job's state is not DEAD, leaving the
table untouched in both cases; otherwise writes the job back with
`state = PENDING, attempts = 0` via `update_job`. -/
def retry_dlq_job (db : List JobRow) (job_id : String) (now : Nat) :
    List JobRow × Except QueueError Job :=
  match Database.get_job db job_id with
  | none => (db, Except.error (QueueError.notFound job_id))
  | some job =>
      if job.state = JobState.dead then
        let job' : Job :=
          { job with state := JobState.pending, attempts := 0,
                     updated_at := now }
        (Database.update_job db job', Except.ok job')
      else (db, Except.error (QueueError.stateConflict job_id))

/-- Result shape of `queue.py`, `get_stats`. -/
structure Stats where
  total : Nat
  pending : Nat
  processing : Nat
  completed : Nat
  failed : Nat
  dead : Nat
deriving DecidableEq

/-- Dict lookup with default 0 (`stats.get(key, 0)`). -/
def lookup0 (m : List (JobState × Nat)) (s : JobState) : Nat :=
  match m.find? fun p => p.1 == s with
  | some p => p.2
  | none => 0

/-- `queue.py`, `get_stats`: `total` is `sum(stats.values())`, and the five
named fields are `stats.get(<state>.value, 0)`. -/
def get_stats (db : List JobRow) : Stats :=
  let m := Database.get_stats db
  { total := (m.map fun p => p.2).sum
    pending := lookup0 m JobState.pending
    processing := lookup0 m JobState.processing
    completed := lookup0 m JobState.completed
    failed := lookup0 m JobState.failed
    dead := lookup0 m JobState.dead }

end QueueManager

/-- `cli.py`, command `enqueue`: the front-end rejects a missing or empty
command (`if not command`) before ever calling the queue manager. -/
def cliRejectsCommand (command : Option String) : Bool :=
  match command with
  | none => true
  | some c => c == ""

namespace Worker

/-- Possible behaviours of `subprocess.run` inside `worker.py`,
`_execute_job`: the process ran and returned an exit code, it raised
`TimeoutExpired`, or it raised some other exception (the runner-error
case, e.g. the process could not be started). -/
inductive RunResult where
  | completed (returncode : Int)
  | timedOut
  | raised
deriving DecidableEq

/-- `worker.py`, `_execute_job`: True exactly when the command ran and
exited with code 0; a timeout and any other exception are both caught
inside the method and yield False. -/
def _execute_job (res : RunResult) : Bool :=
  match res with
  | RunResult.completed rc => rc == 0
  | RunResult.timedOut => false
  | RunResult.raised => false

/-- `worker.py`, `_process_next_job` lines 90-103: in-memory resolution of
a claimed job from the boolean execution result — COMPLETED on success,
otherwise `attempts += 1` and DEAD when `attempts >= max_retries`, else
PENDING. -/
def resolveOutcome (job : Job) (success : Bool) (now : Nat) : Job :=
  if success then
    { job with state := JobState.completed, updated_at := now }
  else
    let a := job.attempts + 1
    if a ≥ job.max_retries then
      { job with attempts := a, state := JobState.dead, updated_at := now }
    else
      { job with attempts := a, state := JobState.pending, updated_at := now }

/-- Outcome of one call to `worker.py`, `_process_next_job`. `crashed`
marks an exception escaping the method — only a store write raising inside
the `except` handler can do so — and carries the table as left behind. -/
inductive TickResult where
  | idle
  | lostRace
  | resolved (db : List JobRow)
  | failedPath (db : List JobRow)
  | crashed (db : List JobRow)
deriving DecidableEq

/-- `worker.py`, `_process_next_job`: fetch the oldest unclaimed pending
job, try to lock it, execute, and resolve. `run` is how `subprocess.run`
behaves for this command; `update_ok`, `except_update_ok` and
`except_unlock_ok` say whether the three potential store writes succeed or
raise a persistence error (a raising write leaves the table unchanged).
When the first `update_job` raises, the handler marks the already-mutated
in-memory job FAILED, rewrites it, and calls `unlock_job`; an exception
from either of those two writes propagates out of the method. -/
def _process_next_job (db : List JobRow) (worker_id : String) (now : Nat)
    (run : RunResult) (update_ok except_update_ok except_unlock_ok : Bool) :
    TickResult :=
  match Database.get_pending_jobs db with
  | [] => TickResult.idle
  | job :: _ =>
      let l := Database.lock_job db job.id worker_id now
      if l.2 = false then TickResult.lostRace
      else
        let db1 := l.1
        let success := _execute_job run
        let job1 := resolveOutcome job success now
        if update_ok then TickResult.resolved (Database.update_job db1 job1)
        else
          let job2 := { job1 with state := JobState.failed, updated_at := now }
          if except_update_ok then
            if except_unlock_ok then
              TickResult.failedPath
                (Database.unlock_job (Database.update_job db1 job2) job.id now)
            else TickResult.crashed (Database.update_job db1 job2)
          else TickResult.crashed db1

/-- What one tick of the `worker.py` `start` loop needs from the world. -/
structure TickSpec where
  run : RunResult
  update_ok : Bool
  except_update_ok : Bool
  except_unlock_ok : Bool
deriving DecidableEq

/-- Effect of one tick on the table; `none` when the tick raised out of
`_process_next_job` (the `while` in `start` has no handler for an ordinary
exception, so the loop terminates). -/
def tickStep (worker_id : String) (now : Nat) (db : List JobRow)
    (t : TickSpec) : Option (List JobRow) :=
  match _process_next_job db worker_id now t.run t.update_ok
      t.except_update_ok t.except_unlock_ok with
  | TickResult.idle => some db
  | TickResult.lostRace => some db
  | TickResult.resolved d => some d
  | TickResult.failedPath d => some d
  | TickResult.crashed _ => none

/-- `worker.py`, `start`: `while self.running: self._process_next_job();
time.sleep(...)`. Runs the given ticks while no exception escapes; `true`
means the loop is still polling after them, `false` that an escaped
exception terminated it. -/
def loopSurvives (worker_id : String) (now : Nat) :
    List JobRow → List TickSpec → Bool
  | _, [] => true
  | db, t :: ts =>
      match tickStep worker_id now db t with
      | some db2 => loopSurvives worker_id now db2 ts
      | none => false

end Worker

namespace Race

/-- Program counter of one claimant executing `Database.lock_job`: before
the SELECT, between the SELECT and the UPDATE, or returned. -/
inductive Phase where
  | start
  | midway
  | done (result : Bool)
deriving DecidableEq

/-- One observable step of a claimant running `lock_job` against the shared
table: the SELECT (returning False at once when it sees a lock), or the
UPDATE together with its rowcount test. -/
def claimStep (job_id worker_id : String) (now : Nat)
    (s : Phase × List JobRow) : Phase × List JobRow :=
  match s.1 with
  | Phase.start =>
      if Database.lock_job_check s.2 job_id then (Phase.done false, s.2)
      else (Phase.midway, s.2)
  | Phase.midway =>
      let u := Database.lock_job_update s.2 job_id worker_id now
      (Phase.done u.2, u.1)
  | Phase.done r => (Phase.done r, s.2)

/-- Shared table plus the program counters of two concurrent claimants. -/
structure RaceState where
  db : List JobRow
  ph1 : Phase
  ph2 : Phase
deriving DecidableEq

/-- Interleaved execution of two `lock_job` calls: the scheduled claimant
performs its next step against the shared table. -/
def raceStep (job_id w1 w2 : String) (now : Nat) (s : RaceState)
    (first : Bool) : RaceState :=
  if first then
    let p := claimStep job_id w1 now (s.ph1, s.db)
    { s with ph1 := p.1, db := p.2 }
  else
    let p := claimStep job_id w2 now (s.ph2, s.db)
    { s with ph2 := p.1, db := p.2 }

/-- Run a schedule of interleaved claimant steps. -/
def runRace (job_id w1 w2 : String) (now : Nat) (s : RaceState)
    (sched : List Bool) : RaceState :=
  sched.foldl (raceStep job_id w1 w2 now) s

end Race

namespace Lifecycle

/-- Effect of the `lock_job` UPDATE on the claimed job's own row. -/
def lockRow (r : JobRow) (worker_id : String) (now : Nat) : JobRow :=
  { r with state := JobState.processing, locked_at := some now,
           locked_by := some worker_id, updated_at := now }

/-- Effect of `update_job` on the job's own row. -/
def writeBack (r : JobRow) (j : Job) : JobRow :=
  { r with command := j.command, state := j.state, attempts := j.attempts,
           max_retries := j.max_retries, updated_at := j.updated_at,
           locked_at := none, locked_by := none }

/-- The row inserted by `enqueue` + `add_job`. -/
def enqueueRow (id command : String) (mr : Int) (now : Nat) : JobRow :=
  ⟨id, command, JobState.pending, 0, mr, now, now, none, none⟩

/-- The job records reachable through the queue interface for one job:
creation by `enqueue` (with a positive retry ceiling, as the claim grants),
claiming of an unlocked pending row by a worker, worker resolution — both
the normal path and the exception path that overwrites the state with
FAILED — and DLQ retry of a dead job. -/
inductive Reachable : JobRow → Prop
  | enqueued (id command : String) (mr : Int) (now : Nat) (hmr : 1 ≤ mr) :
      Reachable (enqueueRow id command mr now)
  | claimed (r : JobRow) (worker_id : String) (now : Nat) :
      Reachable r → r.state = JobState.pending → r.locked_at = none →
      Reachable (lockRow r worker_id now)
  | resolved (r : JobRow) (success : Bool) (now : Nat) :
      Reachable r → r.state = JobState.processing →
      Reachable (writeBack r
        (Worker.resolveOutcome (Database._row_to_job r) success now))
  | exceptFailed (r : JobRow) (success : Bool) (now : Nat) :
      Reachable r → r.state = JobState.processing →
      Reachable (writeBack r
        { Worker.resolveOutcome (Database._row_to_job r) success now with
          state := JobState.failed, updated_at := now })
  | dlqRetried (r : JobRow) (now : Nat) :
      Reachable r → r.state = JobState.dead →
      Reachable (writeBack r
        { Database._row_to_job r with state := JobState.pending,
                                      attempts := 0, updated_at := now })

/-- The inductive retry-budget invariant maintained by every reachable
row. -/
def rowInv (r : JobRow) : Prop :=
  1 ≤ r.max_retries ∧ r.attempts ≤ r.max_retries ∧
  (r.state = JobState.dead → r.attempts = r.max_retries) ∧
  ((r.state = JobState.pending ∨ r.state = JobState.processing) →
    r.attempts < r.max_retries)

end Lifecycle

/-! Concrete fixtures used by the theorems below. -/

/-- A freshly enqueued, unlocked pending job. -/
def pendingRow : JobRow :=
  ⟨"j1", "echo hi", JobState.pending, 0, 3, 0, 0, none, none⟩

/-- A completed, unlocked job. -/
def completedRow : JobRow :=
  ⟨"jC", "echo done", JobState.completed, 0, 3, 0, 0, none, none⟩

/-- A one-job store whose job's command makes the runner itself error. -/
def runnerErrStore : List JobRow :=
  [⟨"je", "boom", JobState.pending, 0, 3, 0, 0, none, none⟩]

/-- The scenario job of claim C3: fresh, with `max_retries = 2`. -/
def mr2Job : Job := ⟨"jf", "false", JobState.pending, 0, 2, 0, 0⟩

/-- A dead job with an exhausted retry budget, for the C4 instance. -/
def deadRow : JobRow :=
  ⟨"jd", "false", JobState.dead, 2, 2, 0, 1, none, none⟩

/-- Keys of the statistics dict built by `Database.get_stats`. -/
def statKeys (m : List (JobState × Nat)) : List JobState :=
  m.map fun p => p.1

/-- Invariant of the partially built statistics dict: keys are distinct,
every entry holds its state's count, and every state present in the table
is a key. -/
def statsInv (db : List JobRow) (m : List (JobState × Nat)) : Prop :=
  (statKeys m).Nodup ∧
  (∀ p ∈ m, p.2 = Database.countState db p.1) ∧
  ∀ s : JobState, (∃ r ∈ db, r.state = s) → s ∈ statKeys m

/-! From here on, the theorems. -/

theorem mem_jobStates (s : JobState) : s ∈ jobStates := by
  cases s <;> simp [jobStates]

theorem nodup_jobStates : jobStates.Nodup := by decide

/-- Claim C1 (code bug): `lock_job` is a check-then-write, not a single
atomic conditional write. With one pending unlocked job and two claimants
with distinct worker identities interleaved as
check₁ ; check₂ ; update₁ ; update₂, both `lock_job` calls return True —
not exactly one — and the job ends locked by the second claimant. -/
theorem lock_job_race_both_claims_succeed :
    (Race.runRace "j1" "w1" "w2" 4 ⟨[pendingRow], Race.Phase.start, Race.Phase.start⟩
        [true, false, true, false]).ph1 = Race.Phase.done true ∧
    (Race.runRace "j1" "w1" "w2" 4 ⟨[pendingRow], Race.Phase.start, Race.Phase.start⟩
        [true, false, true, false]).ph2 = Race.Phase.done true ∧
    (Race.runRace "j1" "w1" "w2" 4 ⟨[pendingRow], Race.Phase.start, Race.Phase.start⟩
        [true, false, true, false]).db =
      [⟨"j1", "echo hi", JobState.processing, 0, 3, 0, 4, some 4, some "w2"⟩] :=
  ⟨rfl, rfl, rfl⟩

/-- Counterexample to claim C2: `lock_job` does not require state Pending.
On a Completed, unlocked job the claim succeeds and moves the job to
Processing. -/
theorem lock_job_claims_completed_job :
    completedRow.state = JobState.completed ∧
    (Database.lock_job [completedRow] "jC" "w1" 5).2 = true ∧
    (Database.lock_job [completedRow] "jC" "w1" 5).1 =
      [⟨"jC", "echo done", JobState.processing, 0, 3, 0, 5, some 5, some "w1"⟩] :=
  ⟨rfl, rfl, rfl⟩

/-- Counterexample to claim C5: `QueueManager.enqueue` performs no
validation — on the empty command it does not fail but creates and stores a
Pending job with attempts 0 and the empty command. -/
theorem enqueue_empty_command_creates_job :
    (QueueManager.enqueue [] "" none none "gen1" 3 0).2 =
      ⟨"gen1", "", JobState.pending, 0, 3, 0, 0⟩ ∧
    (QueueManager.enqueue [] "" none none "gen1" 3 0).1 =
      [⟨"gen1", "", JobState.pending, 0, 3, 0, 0, none, none⟩] :=
  ⟨rfl, rfl⟩

/-- Counterexample to claim C6: when the runner itself errors (the
`subprocess.run` call raises), `_execute_job` swallows the exception and
returns False, so the worker treats it as an ordinary failure: the job ends
Pending with attempts incremented to 1 — not Failed, and the lock release
is folded into the `update_job` write. -/
theorem runner_error_resolves_to_pending :
    Worker._process_next_job runnerErrStore "w1" 2 Worker.RunResult.raised
        true true true =
      Worker.TickResult.resolved
        [⟨"je", "boom", JobState.pending, 1, 3, 0, 2, none, none⟩] ∧
    JobState.pending ≠ JobState.failed :=
  ⟨rfl, by decide⟩

/-- Claim C8 (code bug): a persistent store failure during resolution
terminates the worker loop. When both the resolution write and the
fallback FAILED write raise, the exception escapes `_process_next_job`
and `start` has no handler for it, so the loop does not reach the next
tick; with the store healthy the same job (even a failing one) leaves the
loop alive. -/
theorem persistence_error_terminates_worker_loop :
    Worker.loopSurvives "w1" 3 [pendingRow]
        [⟨Worker.RunResult.completed 0, false, false, true⟩] = false ∧
    Worker.loopSurvives "w1" 3 [pendingRow]
        [⟨Worker.RunResult.completed 1, true, true, true⟩] = true :=
  ⟨rfl, rfl⟩

/-- A map that fixes every element of a list leaves it unchanged. -/
theorem map_fix (f : JobRow → JobRow) (l : List JobRow)
    (h : ∀ r ∈ l, f r = r) : l.map f = l := by
  induction l with
  | nil => rfl
  | cons x xs ih =>
      simp only [List.map_cons]
      rw [h x (List.mem_cons_self x xs),
        ih fun r hr => h r (List.mem_cons_of_mem x hr)]

/-- A job found by `get_job` carries the id it was looked up by. -/
theorem get_job_id_eq (db : List JobRow) (job_id : String) (job : Job)
    (h : Database.get_job db job_id = some job) : job.id = job_id := by
  unfold Database.get_job at h
  obtain ⟨r, hr, hmap⟩ := Option.map_eq_some'.mp h
  have hpr := List.find?_some hr
  have hid : r.id = job_id := by simpa using hpr
  rw [← hmap]
  exact hid

/-- Claim C2 (corrected): sequentially, `lock_job` succeeds iff a row with
the id exists and every such row is unlocked — the state is not consulted,
so a Completed or Failed unlocked job is claimed just like a Pending one.
On failure the table is unchanged; on success the claimed row is set to
Processing with `locked_at = now` and `locked_by` the worker identity. -/
theorem lock_job_succeeds_iff_unlocked (db : List JobRow)
    (job_id worker_id : String) (now : Nat) :
    ((Database.lock_job db job_id worker_id now).2 = true ↔
      (∃ r ∈ db, r.id = job_id) ∧
        ∀ r ∈ db, r.id = job_id → r.locked_at = none) ∧
    ((Database.lock_job db job_id worker_id now).2 = false →
      (Database.lock_job db job_id worker_id now).1 = db) ∧
    ∀ r ∈ (Database.lock_job db job_id worker_id now).1,
      r.id = job_id → (Database.lock_job db job_id worker_id now).2 = true →
        r.state = JobState.processing ∧ r.locked_at = some now ∧
          r.locked_by = some worker_id ∧ r.updated_at = now := by
  by_cases hc : Database.lock_job_check db job_id = true
  · -- the SELECT saw a lock: lock_job returns (db, false)
    have hres : Database.lock_job db job_id worker_id now = (db, false) := by
      simp [Database.lock_job, hc]
    obtain ⟨r0, hr0, hid0, hl0⟩ :
        ∃ x ∈ db, x.id = job_id ∧ x.locked_at.isSome = true := by
      simpa [Database.lock_job_check] using hc
    refine ⟨?_, ?_, ?_⟩
    · rw [hres]
      constructor
      · intro hfalse
        simp at hfalse
      · rintro ⟨-, hall⟩
        have hnone := hall r0 hr0 hid0
        rw [hnone] at hl0
        simp at hl0
    · intro _; rw [hres]
    · intro r _ _ htrue
      rw [hres] at htrue
      simp at htrue
  · -- no lock seen: the unconditioned UPDATE runs
    have hcf : Database.lock_job_check db job_id = false := by
      simpa using hc
    have hres : Database.lock_job db job_id worker_id now =
        Database.lock_job_update db job_id worker_id now := by
      simp [Database.lock_job, hcf]
    have hnolock : ∀ r ∈ db, r.id = job_id → r.locked_at = none := by
      simpa [Database.lock_job_check] using hcf
    refine ⟨?_, ?_, ?_⟩
    · rw [hres]
      simp only [Database.lock_job_update, List.any_eq_true, beq_iff_eq]
      exact ⟨fun hx => ⟨hx, hnolock⟩, fun hx => hx.1⟩
    · rw [hres]
      intro hfalse
      have hnone : ∀ r ∈ db, ¬ r.id = job_id := by
        simpa [Database.lock_job_update] using hfalse
      exact map_fix _ db fun r hr => if_neg (hnone r hr)
    · rw [hres]
      intro r hr hid _
      obtain ⟨r0, hr0, hfr⟩ :=
        List.mem_map.mp (by simpa [Database.lock_job_update] using hr)
      by_cases h0 : r0.id = job_id
      · rw [if_pos h0] at hfr
        rw [← hfr]
        exact ⟨rfl, rfl, rfl, rfl⟩
      · rw [if_neg h0] at hfr
        rw [← hfr] at hid
        exact absurd hid h0

/-- Instance of claim C2's theorem: the pending unlocked fixture is
successfully claimed. -/
theorem lock_job_succeeds_iff_unlocked_witness :
    (Database.lock_job [pendingRow] "j1" "w1" 9).2 = true :=
  (lock_job_succeeds_iff_unlocked [pendingRow] "j1" "w1" 9).1.mpr
    ⟨⟨pendingRow, by simp, rfl⟩,
      by
        intro r hr _
        rw [List.mem_singleton.mp hr]
        rfl⟩

/-- Claim C4 (confirmed): `retry_dlq_job` raises NotFound on an unknown
id, raises StateConflict and leaves the table untouched on a job in any
state other than Dead, and on a Dead job writes it back with
`attempts = 0, state = Pending` and the lock columns clear. -/
theorem retry_dlq_job_spec (db : List JobRow) (job_id : String) (now : Nat) :
    (Database.get_job db job_id = none →
      QueueManager.retry_dlq_job db job_id now =
        (db, Except.error (QueueManager.QueueError.notFound job_id))) ∧
    (∀ job : Job, Database.get_job db job_id = some job →
      job.state ≠ JobState.dead →
      QueueManager.retry_dlq_job db job_id now =
        (db, Except.error (QueueManager.QueueError.stateConflict job_id))) ∧
    ∀ job : Job, Database.get_job db job_id = some job →
      job.state = JobState.dead →
      QueueManager.retry_dlq_job db job_id now =
        (Database.update_job db
            { job with state := JobState.pending, attempts := 0,
                       updated_at := now },
          Except.ok
            { job with state := JobState.pending, attempts := 0,
                       updated_at := now }) ∧
      ∀ r ∈ (QueueManager.retry_dlq_job db job_id now).1,
        r.id = job_id →
          r.state = JobState.pending ∧ r.attempts = 0 ∧
            r.locked_at = none ∧ r.locked_by = none := by
  refine ⟨?_, ?_, ?_⟩
  · intro h
    simp [QueueManager.retry_dlq_job, h]
  · intro job h hne
    simp [QueueManager.retry_dlq_job, h, hne]
  · intro job h hdead
    have hres : QueueManager.retry_dlq_job db job_id now =
        (Database.update_job db
            { job with state := JobState.pending, attempts := 0,
                       updated_at := now },
          Except.ok
            { job with state := JobState.pending, attempts := 0,
                       updated_at := now }) := by
      simp [QueueManager.retry_dlq_job, h, hdead]
    refine ⟨hres, ?_⟩
    rw [hres]
    intro r hr hid
    obtain ⟨r0, hr0, hfr⟩ := List.mem_map.mp hr
    have hjid : job.id = job_id := get_job_id_eq db job_id job h
    by_cases h0 : r0.id =
        ({ job with state := JobState.pending, attempts := 0,
                    updated_at := now } : Job).id
    · rw [if_pos h0] at hfr
      rw [← hfr]
      exact ⟨rfl, rfl, rfl, rfl⟩
    · rw [if_neg h0] at hfr
      rw [← hfr] at hid
      exact absurd (by simpa [hjid] using h0) (by simp [hid])

/-- Instance of claim C4's theorem: retrying the dead fixture resets it to
Pending with zero attempts. -/
theorem retry_dlq_job_spec_witness :
    QueueManager.retry_dlq_job [deadRow] "jd" 5 =
      ([⟨"jd", "false", JobState.pending, 0, 2, 0, 5, none, none⟩],
        Except.ok ⟨"jd", "false", JobState.pending, 0, 2, 0, 5⟩) :=
  ((retry_dlq_job_spec [deadRow] "jd" 5).2.2
      ⟨"jd", "false", JobState.dead, 2, 2, 0, 1⟩ rfl rfl).1

/-- Claim C3 (confirmed): the runner reports failure on a non-zero exit or
a timeout; on failure the worker increments `attempts` by one and resolves
to Dead exactly when the new count reaches `max_retries`, else to Pending.
With `max_retries = 2` the job is Pending with attempts 1 after one
failure and Dead with attempts 2 after the second. -/
theorem retry_resolution_and_exhaustion :
    (∀ rc : Int,
      Worker._execute_job (Worker.RunResult.completed rc) = (rc == 0)) ∧
    Worker._execute_job Worker.RunResult.timedOut = false ∧
    (∀ (job : Job) (now : Nat),
        (Worker.resolveOutcome job false now).attempts = job.attempts + 1 ∧
        ((Worker.resolveOutcome job false now).state = JobState.dead ↔
          job.max_retries ≤ job.attempts + 1) ∧
        ((Worker.resolveOutcome job false now).state = JobState.pending ↔
          job.attempts + 1 < job.max_retries)) ∧
    (Worker.resolveOutcome mr2Job false 1).state = JobState.pending ∧
    (Worker.resolveOutcome mr2Job false 1).attempts = 1 ∧
    (Worker.resolveOutcome (Worker.resolveOutcome mr2Job false 1) false 2).state
      = JobState.dead ∧
    (Worker.resolveOutcome (Worker.resolveOutcome mr2Job false 1) false 2).attempts
      = 2 := by
  refine ⟨fun rc => rfl, rfl, fun job now => ?_, rfl, rfl, rfl, rfl⟩
  by_cases h : job.max_retries ≤ job.attempts + 1
  · simp [Worker.resolveOutcome, h, ge_iff_le]
  · simp [Worker.resolveOutcome, ge_iff_le, h]
    omega

/-- Instance of claim C3's theorem at a concrete job. -/
theorem retry_resolution_and_exhaustion_witness :
    (Worker.resolveOutcome mr2Job false 1).attempts = mr2Job.attempts + 1 :=
  (retry_resolution_and_exhaustion.2.2.1 mr2Job 1).1

/-- Claim C10 (confirmed): `max_retries or config.get("max_retries", 3)`
coalesces an explicit 0 (falsy) to the configured default, 3 under the
default configuration; no call to `enqueue` can produce a job with
`max_retries = 0` while the configured default is 3. -/
theorem enqueue_zero_max_retries_uses_default (db : List JobRow)
    (command : String) (job_id : Option String) (gen_id : String) (now : Nat) :
    (∀ cfg : Int,
      (QueueManager.enqueue db command job_id (some 0) gen_id cfg
          now).2.max_retries = cfg) ∧
    (QueueManager.enqueue db command job_id (some 0) gen_id
        QueueManager.defaultMaxRetries now).2.max_retries = 3 ∧
    ∀ mr : Option Int,
      (QueueManager.enqueue db command job_id mr gen_id
          QueueManager.defaultMaxRetries now).2.max_retries ≠ 0 := by
  refine ⟨fun cfg => rfl, rfl, fun mr => ?_⟩
  cases mr with
  | none => simp [QueueManager.enqueue, QueueManager.defaultMaxRetries]
  | some m =>
      by_cases h : m = 0 <;>
        simp [QueueManager.enqueue, QueueManager.defaultMaxRetries, h]

/-- Instance of claim C10's theorem at a concrete call. -/
theorem enqueue_zero_max_retries_uses_default_witness :
    (QueueManager.enqueue [] "echo hi" none (some 0) "g1"
        QueueManager.defaultMaxRetries 0).2.max_retries = 3 :=
  (enqueue_zero_max_retries_uses_default [] "echo hi" none "g1" 0).2.1

/-- Claim C5 (corrected): the Queue Manager's `enqueue` performs no
command validation at all — for every command, the empty string included,
it creates and stores a job with `state = Pending, attempts = 0`; the
empty-command rejection happens only in the CLI front-end, before
`enqueue` is called. -/
theorem enqueue_always_creates_pending (db : List JobRow) (command : String)
    (job_id : Option String) (max_retries : Option Int) (gen_id : String)
    (cfg : Int) (now : Nat) :
    (QueueManager.enqueue db command job_id max_retries gen_id cfg now).2.state
      = JobState.pending ∧
    (QueueManager.enqueue db command job_id max_retries gen_id cfg
        now).2.attempts = 0 ∧
    (QueueManager.enqueue db command job_id max_retries gen_id cfg
        now).2.command = command ∧
    (QueueManager.enqueue db command job_id max_retries gen_id cfg now).1 =
      Database.add_job db
        (QueueManager.enqueue db command job_id max_retries gen_id cfg now).2 ∧
    cliRejectsCommand (some "") = true :=
  ⟨rfl, rfl, rfl, rfl, rfl⟩

/-- Instance of claim C5's theorem at the empty command. -/
theorem enqueue_always_creates_pending_witness :
    (QueueManager.enqueue [] "" none none "gen2" 3 0).2.state
      = JobState.pending :=
  (enqueue_always_creates_pending [] "" none none "gen2" 3 0).1

/-- Claim C6 (corrected): a runner error — an exception from the
`subprocess.run` call — is caught inside `_execute_job` and treated
exactly like a timeout: the `_process_next_job` tick is identical for the
two outcomes, and the failure resolution never produces state Failed. The
Failed state with the explicit `unlock_job` release appears only on the
exception path, i.e. when the resolution's own store write raises. -/
theorem runner_error_treated_as_ordinary_failure (db : List JobRow)
    (worker_id : String) (now : Nat) (u1 u2 u3 : Bool) :
    Worker._execute_job Worker.RunResult.raised = false ∧
    Worker._process_next_job db worker_id now Worker.RunResult.raised
        u1 u2 u3 =
      Worker._process_next_job db worker_id now Worker.RunResult.timedOut
        u1 u2 u3 ∧
    (∀ (job : Job) (t : Nat),
        (Worker.resolveOutcome job false t).state ≠ JobState.failed) ∧
    Worker._process_next_job runnerErrStore "w1" 2 Worker.RunResult.raised
        false true true =
      Worker.TickResult.failedPath
        [⟨"je", "boom", JobState.failed, 1, 3, 0, 2, none, none⟩] := by
  refine ⟨rfl, rfl, ?_, rfl⟩
  intro job t
  by_cases h : job.max_retries ≤ job.attempts + 1 <;>
    simp [Worker.resolveOutcome, h, ge_iff_le]

/-- Every reachable row satisfies the full inductive retry-budget
invariant. -/
theorem reachable_rowInv (r : JobRow) (h : Lifecycle.Reachable r) :
    Lifecycle.rowInv r := by
  induction h with
  | enqueued id command mr now hmr =>
      refine ⟨hmr, ?_, ?_, ?_⟩ <;>
        simp [Lifecycle.enqueueRow] <;> omega
  | claimed r worker_id now _ hpend _ ih =>
      obtain ⟨h1, h2, _, h4⟩ := ih
      refine ⟨h1, h2, ?_, ?_⟩ <;> simp [Lifecycle.lockRow]
      exact h4 (Or.inl hpend)
  | resolved r success now _ hproc ih =>
      obtain ⟨h1, _, _, h4⟩ := ih
      have hlt : r.attempts < r.max_retries := h4 (Or.inr hproc)
      cases success with
      | true =>
          refine ⟨?_, ?_, ?_, ?_⟩ <;>
            simp [Lifecycle.writeBack, Worker.resolveOutcome,
              Database._row_to_job] <;> omega
      | false =>
          by_cases hd : r.attempts + 1 ≥ r.max_retries
          · refine ⟨?_, ?_, ?_, ?_⟩ <;>
              simp [Lifecycle.writeBack, Worker.resolveOutcome,
                Database._row_to_job, hd] <;> omega
          · refine ⟨?_, ?_, ?_, ?_⟩ <;>
              simp [Lifecycle.writeBack, Worker.resolveOutcome,
                Database._row_to_job, hd] <;> omega
  | exceptFailed r success now _ hproc ih =>
      obtain ⟨h1, _, _, h4⟩ := ih
      have hlt : r.attempts < r.max_retries := h4 (Or.inr hproc)
      cases success with
      | true =>
          refine ⟨?_, ?_, ?_, ?_⟩ <;>
            simp [Lifecycle.writeBack, Worker.resolveOutcome,
              Database._row_to_job] <;> omega
      | false =>
          by_cases hd : r.attempts + 1 ≥ r.max_retries
          · refine ⟨?_, ?_, ?_, ?_⟩ <;>
              simp [Lifecycle.writeBack, Worker.resolveOutcome,
                Database._row_to_job, hd] <;> omega
          · refine ⟨?_, ?_, ?_, ?_⟩ <;>
              simp [Lifecycle.writeBack, Worker.resolveOutcome,
                Database._row_to_job, hd] <;> omega
  | dlqRetried r now _ _ ih =>
      obtain ⟨h1, _, _, _⟩ := ih
      refine ⟨?_, ?_, ?_, ?_⟩ <;>
        simp [Lifecycle.writeBack, Database._row_to_job] <;> omega

/-- Claim C7 (confirmed): every job record reachable through enqueue
(with a positive retry ceiling), worker claiming and resolution, and DLQ
retry satisfies `attempts <= max_retries`, and a Dead record always has
`attempts` exactly equal to `max_retries` — never beyond it. -/
theorem retry_budget_invariant (r : JobRow) (h : Lifecycle.Reachable r) :
    r.attempts ≤ r.max_retries ∧
    (r.state = JobState.dead → r.attempts = r.max_retries) :=
  ⟨(reachable_rowInv r h).2.1, (reachable_rowInv r h).2.2.1⟩

/-- Instance of claim C7's theorem at a freshly enqueued row. -/
theorem retry_budget_invariant_witness :
    (Lifecycle.enqueueRow "j" "echo hi" 2 0).attempts ≤
        (Lifecycle.enqueueRow "j" "echo hi" 2 0).max_retries ∧
    ((Lifecycle.enqueueRow "j" "echo hi" 2 0).state = JobState.dead →
      (Lifecycle.enqueueRow "j" "echo hi" 2 0).attempts =
        (Lifecycle.enqueueRow "j" "echo hi" 2 0).max_retries) :=
  retry_budget_invariant _
    (Lifecycle.Reachable.enqueued "j" "echo hi" 2 0 (by decide))

/-- Instance of claim C6's theorem at a concrete job. -/
theorem runner_error_treated_as_ordinary_failure_witness :
    (Worker.resolveOutcome ⟨"jw", "true", JobState.pending, 0, 3, 0, 0⟩
        false 1).state ≠ JobState.failed :=
  (runner_error_treated_as_ordinary_failure [] "w1" 0 true true
      true).2.2.1 ⟨"jw", "true", JobState.pending, 0, 3, 0, 0⟩ 1

/-! Statistics lemmas, building up to claim C9. -/

/-- No row in a given state means a zero count. -/
theorem countState_eq_zero (db : List JobRow) (s : JobState)
    (h : ∀ r ∈ db, r.state ≠ s) : Database.countState db s = 0 := by
  induction db with
  | nil => rfl
  | cons x xs ih =>
      have hx : ¬ (x.state == s) = true := by
        simpa using h x (List.mem_cons_self x xs)
      have ihx := ih fun r hr => h r (List.mem_cons_of_mem x hr)
      simpa [Database.countState, List.filter_cons, hx] using ihx

theorem statKeys_group_stats (db : List JobRow) :
    statKeys (Database.group_stats db) = (db.map fun r => r.state).dedup := by
  simp [statKeys, Database.group_stats, List.map_map, Function.comp_def]

/-- The GROUP BY phase already satisfies the dict invariant. -/
theorem statsInv_group_stats (db : List JobRow) :
    statsInv db (Database.group_stats db) := by
  refine ⟨?_, ?_, ?_⟩
  · rw [statKeys_group_stats]
    exact List.nodup_dedup _
  · intro p hp
    obtain ⟨s, _, rfl⟩ := List.mem_map.mp hp
    rfl
  · rintro s ⟨r, hr, hrs⟩
    rw [statKeys_group_stats, List.mem_dedup]
    exact List.mem_map.mpr ⟨r, hr, hrs⟩

theorem mem_statKeys_of_any (m : List (JobState × Nat)) (s : JobState)
    (h : (m.any fun p => p.1 == s) = true) : s ∈ statKeys m := by
  obtain ⟨p, hp, hps⟩ := List.any_eq_true.mp h
  exact List.mem_map.mpr ⟨p, hp, by simpa using hps⟩

theorem any_of_mem_statKeys (m : List (JobState × Nat)) (s : JobState)
    (h : s ∈ statKeys m) : (m.any fun p => p.1 == s) = true := by
  obtain ⟨p, hp, hps⟩ := List.mem_map.mp h
  exact List.any_eq_true.mpr ⟨p, hp, by simpa using hps⟩

/-- `setdefault` preserves the dict invariant. -/
theorem statsInv_setdefault (db : List JobRow) (m : List (JobState × Nat))
    (s : JobState) (h : statsInv db m) :
    statsInv db (Database.setdefault m s 0) := by
  obtain ⟨h1, h2, h3⟩ := h
  unfold Database.setdefault
  by_cases hk : (m.any fun p => p.1 == s) = true
  · rw [if_pos hk]
    exact ⟨h1, h2, h3⟩
  · rw [if_neg hk]
    have hs : s ∉ statKeys m := fun hmem => hk (any_of_mem_statKeys m s hmem)
    have hkeys : statKeys (m ++ [(s, 0)]) = statKeys m ++ [s] := by
      simp [statKeys]
    refine ⟨?_, ?_, ?_⟩
    · rw [hkeys, List.nodup_append]
      refine ⟨h1, List.nodup_singleton s, fun a ha hmem => ?_⟩
      rw [List.mem_singleton.mp hmem] at ha
      exact hs ha
    · intro p hp
      rcases List.mem_append.mp hp with hp | hp
      · exact h2 p hp
      · have hp' : p = (s, 0) := List.mem_singleton.mp hp
        subst hp'
        have hnor : ∀ r ∈ db, r.state ≠ s := fun r hr hrs =>
          hs (h3 s ⟨r, hr, hrs⟩)
        exact (countState_eq_zero db s hnor).symm
    · intro s' hex
      rw [hkeys]
      exact List.mem_append.mpr (Or.inl (h3 s' hex))

theorem statsInv_foldl (db : List JobRow) (l : List JobState)
    (m : List (JobState × Nat)) (h : statsInv db m) :
    statsInv db (l.foldl (fun acc s => Database.setdefault acc s 0) m) := by
  induction l generalizing m with
  | nil => exact h
  | cons s l ih => exact ih _ (statsInv_setdefault db m s h)

theorem mem_statKeys_setdefault (m : List (JobState × Nat)) (s t : JobState)
    (v : Nat) (h : t ∈ statKeys m ∨ t = s) :
    t ∈ statKeys (Database.setdefault m s v) := by
  unfold Database.setdefault
  by_cases hk : (m.any fun p => p.1 == s) = true
  · rw [if_pos hk]
    rcases h with h | rfl
    · exact h
    · exact mem_statKeys_of_any m t hk
  · rw [if_neg hk]
    have hkeys : statKeys (m ++ [(s, v)]) = statKeys m ++ [s] := by
      simp [statKeys]
    rw [hkeys]
    rcases h with h | rfl
    · exact List.mem_append.mpr (Or.inl h)
    · exact List.mem_append.mpr (Or.inr (List.mem_singleton.mpr rfl))

theorem mem_statKeys_foldl (l : List JobState) (m : List (JobState × Nat))
    (t : JobState) (h : t ∈ l ∨ t ∈ statKeys m) :
    t ∈ statKeys (l.foldl (fun acc s => Database.setdefault acc s 0) m) := by
  induction l generalizing m with
  | nil =>
      rcases h with h | h
      · exact absurd h (List.not_mem_nil t)
      · exact h
  | cons s l ih =>
      rcases h with h | h
      · rcases List.mem_cons.mp h with heq | h
        · exact ih _ (Or.inr (mem_statKeys_setdefault m s t 0 (Or.inr heq)))
        · exact ih _ (Or.inl h)
      · exact ih _ (Or.inr (mem_statKeys_setdefault m s t 0 (Or.inl h)))

theorem statsInv_get_stats (db : List JobRow) :
    statsInv db (Database.get_stats db) :=
  statsInv_foldl db jobStates (Database.group_stats db)
    (statsInv_group_stats db)

theorem mem_statKeys_get_stats (db : List JobRow) (s : JobState) :
    s ∈ statKeys (Database.get_stats db) :=
  mem_statKeys_foldl jobStates (Database.group_stats db) s
    (Or.inl (mem_jobStates s))

/-- Every state has its exact count as an entry of the statistics dict. -/
theorem entry_mem_get_stats (db : List JobRow) (s : JobState) :
    (s, Database.countState db s) ∈ Database.get_stats db := by
  obtain ⟨⟨p1, p2⟩, hp, hps⟩ := List.mem_map.mp (mem_statKeys_get_stats db s)
  have hps' : p1 = s := hps
  have hval' : p2 = Database.countState db p1 :=
    (statsInv_get_stats db).2.1 ⟨p1, p2⟩ hp
  subst hps'
  subst hval'
  exact hp

theorem lookup0_get_stats (db : List JobRow) (s : JobState) :
    QueueManager.lookup0 (Database.get_stats db) s =
      Database.countState db s := by
  unfold QueueManager.lookup0
  cases hf : (Database.get_stats db).find? fun p => p.1 == s with
  | none =>
      exfalso
      have hnone := List.find?_eq_none.mp hf _ (entry_mem_get_stats db s)
      simp at hnone
  | some p =>
      have hps : p.1 = s := by simpa using List.find?_some hf
      have hval : p.2 = Database.countState db p.1 :=
        (statsInv_get_stats db).2.1 p (List.mem_of_find?_eq_some hf)
      show p.2 = Database.countState db s
      rw [hval, hps]

theorem statKeys_get_stats_perm (db : List JobRow) :
    (statKeys (Database.get_stats db)).Perm jobStates :=
  (List.perm_ext_iff_of_nodup (statsInv_get_stats db).1 nodup_jobStates).mpr
    fun s => ⟨fun _ => mem_jobStates s, fun _ => mem_statKeys_get_stats db s⟩

theorem values_get_stats (db : List JobRow) :
    ((Database.get_stats db).map fun p => p.2) =
      (statKeys (Database.get_stats db)).map fun s =>
        Database.countState db s := by
  unfold statKeys
  rw [List.map_map]
  exact List.map_congr_left fun p hp => (statsInv_get_stats db).2.1 p hp

theorem total_eq_sum_counts (db : List JobRow) :
    ((Database.get_stats db).map fun p => p.2).sum =
      (jobStates.map fun s => Database.countState db s).sum := by
  rw [values_get_stats]
  exact List.Perm.sum_eq (List.Perm.map _ (statKeys_get_stats_perm db))

theorem sum_countState_eq_length (db : List JobRow) :
    (jobStates.map fun s => Database.countState db s).sum = db.length := by
  induction db with
  | nil => rfl
  | cons r l ih =>
      have hstep : ∀ s, Database.countState (r :: l) s =
          (if r.state = s then 1 else 0) + Database.countState l s := by
        intro s
        by_cases h : r.state = s
        · simp [Database.countState, List.filter_cons, h]
          omega
        · simp [Database.countState, List.filter_cons, h]
      simp only [jobStates, List.map_cons, List.map_nil, List.sum_cons,
        List.sum_nil] at ih ⊢
      rw [hstep, hstep, hstep, hstep, hstep]
      cases hr : r.state <;> simp [hr] <;> omega

/-- Claim C9 (confirmed): the store's statistics contain an entry for
every defined state — with its exact count, zero included — and the queue
manager's `total` equals both the sum of the five named per-state counts
and the store's total number of jobs, for any population including the
empty one. -/
theorem stats_totals (db : List JobRow) :
    (∀ s : JobState, (s, Database.countState db s) ∈ Database.get_stats db) ∧
    (QueueManager.get_stats db).total =
        (QueueManager.get_stats db).pending +
        (QueueManager.get_stats db).processing +
        (QueueManager.get_stats db).completed +
        (QueueManager.get_stats db).failed +
        (QueueManager.get_stats db).dead ∧
    (QueueManager.get_stats db).total = db.length := by
  have hunf : QueueManager.get_stats db =
      ⟨((Database.get_stats db).map fun p => p.2).sum,
       QueueManager.lookup0 (Database.get_stats db) JobState.pending,
       QueueManager.lookup0 (Database.get_stats db) JobState.processing,
       QueueManager.lookup0 (Database.get_stats db) JobState.completed,
       QueueManager.lookup0 (Database.get_stats db) JobState.failed,
       QueueManager.lookup0 (Database.get_stats db) JobState.dead⟩ := rfl
  refine ⟨entry_mem_get_stats db, ?_, ?_⟩
  · rw [hunf]
    dsimp only
    rw [lookup0_get_stats, lookup0_get_stats, lookup0_get_stats,
      lookup0_get_stats, lookup0_get_stats, total_eq_sum_counts]
    simp [jobStates]
    omega
  · rw [hunf]
    dsimp only
    rw [total_eq_sum_counts]
    exact sum_countState_eq_length db

/-- Instance of claim C9's theorem on a one-job store. -/
theorem stats_totals_witness :
    (QueueManager.get_stats [pendingRow]).total = 1 :=
  (stats_totals [pendingRow]).2.2

end QueueCtl
